import Mathlib

/-
Verification development for the tender automation and monitoring scripts.

The two Python scripts are shallowly embedded:
  * `demonstrate.py`  — the anchor-based notifier pipeline (parse_tenders,
    is_relevant, load_seen, save_seen, send_email_smtp, main);
  * `demonstration.py` — the tabular Selenium/sqlite pipeline
    (is_relevant_tender, scrape_latest_tenders).

External library calls (BeautifulSoup parsing, urljoin, the DATE_RE regex
search, json decoding, the SMTP transport) are modelled as explicit function
parameters or as pre-extracted data in the document model; all of the
scripts' own logic is translated directly.
-/

namespace TenderAutomation

/-! ## String helpers mirroring the Python primitives used by the scripts -/

/-- ASCII lower-casing of one character, as `str.lower` acts on ASCII. -/
def asciiLower (c : Char) : Char :=
  if 'A' ≤ c ∧ c ≤ 'Z' then Char.ofNat (c.toNat + 32) else c

/-- `s.lower()` on a string. -/
def lowerS (s : String) : String := ⟨s.data.map asciiLower⟩

/-- `p in l` for character lists: some contiguous occurrence of `p` in `l`
(Python substring containment; the empty pattern is contained anywhere). -/
def hasSubstr (p : List Char) : List Char → Bool
  | [] => p.isEmpty
  | c :: t => p.isPrefixOf (c :: t) || hasSubstr p t

/-- Python `pat in s` on strings. -/
def strContains (s pat : String) : Bool := hasSubstr pat.data s.data

/-- Whitespace characters removed by Python `str.strip()`. -/
def isSpaceC (c : Char) : Bool :=
  c == ' ' || c == '\t' || c == '\n' || c == '\r' || c == '\x0B' || c == '\x0C'

/-- Python `s.strip()`. -/
def trimS (s : String) : String :=
  ⟨((s.data.dropWhile isSpaceC).reverse.dropWhile isSpaceC).reverse⟩

/-- Python slicing `s[:n]` (first `n` characters). -/
def takeS (n : Nat) (s : String) : String := ⟨s.data.take n⟩

/-- Left-to-right non-overlapping deletion of `pat`, the character-list core of
Python `s.replace(pat, "")`.  The first argument counts characters of a match
still to be skipped. -/
def eraseAllAux (pat : List Char) : Nat → List Char → List Char
  | _, [] => []
  | k + 1, _ :: t => eraseAllAux pat k t
  | 0, c :: t =>
    if pat.isPrefixOf (c :: t) then eraseAllAux pat (pat.length - 1) t
    else c :: eraseAllAux pat 0 t

/-- Python `s.replace(pat, "")`.  At its one call site in `parse_tenders` the
pattern (an anchor title) has length at least 6, hence is non-empty. -/
def eraseAllS (s pat : String) : String :=
  if pat.data.isEmpty then s else ⟨eraseAllAux pat.data 0 s.data⟩

/-- Python `" ".join(l)`. -/
def joinSpace : List String → String
  | [] => ""
  | x :: xs => xs.foldl (fun a b => a ++ " " ++ b) x

/-- Python truthiness of an optional string (`None` and `""` are falsy). -/
def optTruthy : Option String → Bool
  | none => false
  | some s => !(s == "")

/-- Python `f"{x}"` on an optional value (`None` prints as `"None"`). -/
def pyStrOption : Option String → String
  | none => "None"
  | some s => s

/-! ## Association lists, mirroring the Python dict operations used for the
seen store of `demonstrate.py` and the sqlite table of `demonstration.py`. -/

/-- Python `key in d`. -/
def alistMem {β : Type} : List (String × β) → String → Bool
  | [], _ => false
  | (k, _) :: rest, key => k == key || alistMem rest key

/-- Python `d.get(key)` / sqlite lookup by primary key. -/
def alistLookup {β : Type} : List (String × β) → String → Option β
  | [], _ => none
  | (k, v) :: rest, key => if k == key then some v else alistLookup rest key

/-- Python `d[key] = v`: overwrite in place if the key is present, else append
(insertion order preserved, as for a Python dict). -/
def alistInsert {β : Type} (l : List (String × β)) (key : String) (v : β) :
    List (String × β) :=
  if alistMem l key then l.map (fun p => if p.1 == key then (key, v) else p)
  else l ++ [(key, v)]

/-! ## Data model for the anchor pipeline (`demonstrate.py`) -/

/-- One `<a href=...>` element of the narrowed content region, as handed over
by BeautifulSoup: its visible text (`get_text(" ", strip=True)`), its raw
`href` attribute, and the full text of its structural parent when it has one. -/
structure Anchor where
  text : String
  href : String
  parentText : Option String
deriving DecidableEq

/-- The parsed document: the anchors of the content region in document order,
and the full text of the content region (used by the date fallback search). -/
structure Doc where
  anchors : List Anchor
  contentText : String
deriving DecidableEq

/-- The dict `{title, href, date, snippet}` built per anchor by
`parse_tenders`. -/
structure Tender where
  title : String
  href : String
  date : Option String
  snippet : String
deriving DecidableEq

/-- The per-identity metadata stored by `main` in the seen file. -/
structure SeenEntry where
  title : String
  date : Option String
  notified : Bool
  first_seen_utc : String
deriving DecidableEq

/-- The seen store: the JSON object mapping href to metadata. -/
abbrev Store := List (String × SeenEntry)

/-- The title filter of `parse_tenders`: `if not title or len(title) < 6`. -/
def anchorTitleOk (a : Anchor) : Bool := !(a.text == "" || a.text.length < 6)

/-- The record `parse_tenders` builds for one accepted anchor.
`resolve` models `urljoin(base_url, ·)`; `ds` models `DATE_RE.search`
(returning the matched substring, `none` when there is no match). -/
def buildTender (resolve : String → String) (ds : String → Option String)
    (doc : Doc) (a : Anchor) : Tender :=
  let parent_text := match a.parentText with | some t => t | none => ""
  { title := a.text
    href := resolve a.href
    date := match ds parent_text with
            | some d => some d
            | none => ds doc.contentText
    snippet := takeS 300 (trimS (eraseAllS parent_text a.text)) }

/-- One iteration of the `for a in content.find_all("a", href=True)` loop of
`parse_tenders`: skip short titles, skip an href already collected, otherwise
append the new record (dict insertion order). -/
def parseStep (resolve : String → String) (ds : String → Option String)
    (doc : Doc) (acc : List Tender) (a : Anchor) : List Tender :=
  if a.text == "" || a.text.length < 6 then acc
  else if acc.any (fun r => r.href == resolve a.href) then acc
  else acc ++ [buildTender resolve ds doc a]

/-- `parse_tenders(html, base_url)`: the deduplicated candidate list, in
insertion order (`list(items.values())`). -/
def parse_tenders (resolve : String → String) (ds : String → Option String)
    (doc : Doc) : List Tender :=
  doc.anchors.foldl (parseStep resolve ds doc) []

/-- `is_relevant(title, keywords)` of `demonstrate.py`: lower-case the given
string and test each non-empty keyword for substring containment.  Note that
the argument is exactly the string passed by the caller (the title alone at
the call site in `main`). -/
def is_relevant (title : String) (keywords : List String) : Bool :=
  keywords.any (fun k => !(k == "") && strContains (lowerS title) (lowerS k))

/-- Subject line built in `main`. -/
def subjectOf (t : Tender) : String := "NEW Tender: " ++ t.title

/-- Body built in `main` (`now` models `datetime.utcnow().isoformat()`). -/
def bodyOf (t : Tender) (now : String) : String :=
  "Title: " ++ t.title ++ "\n" ++ "Date: " ++ pyStrOption t.date ++ "\n" ++
  "Link: " ++ t.href ++ "\n\n" ++ t.snippet ++ "\n\n" ++ "----\n" ++
  "Detected: " ++ now ++ " UTC\n"

/-- The seen-file value recorded for a processed item. -/
def mkSeenEntry (t : Tender) (ok : Bool) (now : String) : SeenEntry :=
  { title := t.title, date := t.date, notified := ok, first_seen_utc := now }

/-- The `for t in new_items` loop of `main`: attempt delivery, then assign
`seen[t["href"]]` with `notified` set to the delivery outcome, regardless of
that outcome. -/
def notifyLoop (deliver : Tender → Bool) (now : String) :
    List Tender → Store → Store
  | [], seen => seen
  | t :: rest, seen =>
    notifyLoop deliver now rest
      (alistInsert seen t.href (mkSeenEntry t (deliver t) now))

/-- Externally visible effects of one run of `main`: one delivery attempt per
new item, in order, then the single `save_seen` write of the full mapping. -/
inductive Effect
  | notify (subject : String)
  | save (store : Store)
deriving DecidableEq

def isSaveE : Effect → Bool
  | .save _ => true
  | .notify _ => false

def isNotifyE : Effect → Bool
  | .notify _ => true
  | .save _ => false

/-- The state of the persisted seen file after a prefix of the run's effects:
only a `save` effect changes it. -/
def persistedAfter (p0 : Store) : List Effect → Store
  | [] => p0
  | Effect.notify _ :: rest => persistedAfter p0 rest
  | Effect.save s :: rest => persistedAfter s rest

/-- The intermediate lists and results of one run of `main` over an already
fetched document. -/
structure RunResult where
  tenders : List Tender
  relevant : List Tender
  newItems : List Tender
  finalStore : Store
  trace : List Effect
deriving DecidableEq

/-- `main` of `demonstrate.py` after the fetch: parse, keyword-filter on the
title, diff against the loaded store, run the notification loop, and save the
full updated mapping once at the end.  `deliver` models the boolean outcome of
`send_email_smtp` per item. -/
def runPipeline (resolve : String → String) (ds : String → Option String)
    (deliver : Tender → Bool) (now : String)
    (doc : Doc) (kws : List String) (seen0 : Store) : RunResult :=
  let tenders := parse_tenders resolve ds doc
  let relevant := tenders.filter (fun t => is_relevant t.title kws)
  let newItems := relevant.filter (fun t => !(alistMem seen0 t.href))
  let finalStore := notifyLoop deliver now newItems seen0
  { tenders := tenders
    relevant := relevant
    newItems := newItems
    finalStore := finalStore
    trace := newItems.map (fun t => Effect.notify (subjectOf t))
             ++ [Effect.save finalStore] }

/-- `load_seen(path)`: the file system at the configured path is `none` when
the file does not exist, otherwise `some raw`; `parse` models `json.load`,
returning `none` exactly on a malformed payload, on which the Python call
raises.  The second component returns the file system unchanged: the function
only reads. -/
def loadSeen (parse : String → Option Store) (fs : Option String) :
    Except String Store × Option String :=
  match fs with
  | none => (Except.ok [], none)
  | some raw =>
    match parse raw with
    | some m => (Except.ok m, some raw)
    | none => (Except.error "malformed seen file", some raw)

/-- Whether an `Except` result is an error (a raised exception). -/
def exceptIsError {ε α : Type} : Except ε α → Bool
  | .error _ => true
  | .ok _ => false

/-! ## Configuration and delivery (`demonstrate.py`) -/

/-- The environment-derived configuration of `demonstrate.py`.  Optional
strings model `os.environ.get(..., None)`. -/
structure Config where
  dryRun : Bool
  smtpHost : Option String
  smtpUser : Option String
  smtpPass : Option String
  fromEmail : Option String
  toEmails : List String
deriving DecidableEq

/-- The recipients expression at the call site in `main`:
`TO_EMAILS or [SMTP_USER] if SMTP_USER else []`, which Python groups as
`(TO_EMAILS or [SMTP_USER]) if SMTP_USER else []`. -/
def recipientsArg (cfg : Config) : List String :=
  if optTruthy cfg.smtpUser then
    (if cfg.toEmails.isEmpty then [match cfg.smtpUser with | some u => u | none => ""]
     else cfg.toEmails)
  else []

/-- `send_email_smtp(subject, body, to_addrs)`: dry-run short-circuits to
success; a missing piece of configuration (or an empty recipient list) yields
`False` without attempting transmission; otherwise the external SMTP
transport decides the outcome (`transport` models the `try/except` block). -/
def sendEmailSmtp (cfg : Config)
    (transport : String → String → List String → Bool)
    (subject body : String) (toAddrs : List String) : Bool :=
  if cfg.dryRun then true
  else if !(optTruthy cfg.smtpHost && optTruthy cfg.smtpUser &&
            optTruthy cfg.smtpPass && optTruthy cfg.fromEmail &&
            !toAddrs.isEmpty) then false
  else transport subject body toAddrs

/-- The delivery outcome for one item as `main` computes it. -/
def deliverOf (cfg : Config) (transport : String → String → List String → Bool)
    (now : String) (t : Tender) : Bool :=
  sendEmailSmtp cfg transport (subjectOf t) (bodyOf t now) (recipientsArg cfg)

/-- `main` with delivery wired to the configured SMTP sender. -/
def runMain (cfg : Config) (transport : String → String → List String → Bool)
    (resolve : String → String) (ds : String → Option String) (now : String)
    (doc : Doc) (kws : List String) (seen0 : Store) : RunResult :=
  runPipeline resolve ds (deliverOf cfg transport now) now doc kws seen0

/-! ## The tabular pipeline (`demonstration.py`) -/

/-- The module-level `KEYWORDS` constant of `demonstration.py`. -/
def tabKeywords : List String :=
  ["eprocurment", "etender", "eauction", "esale", "edisposal",
   "government ERP", "enilami", "ebidding", "contract management",
   "measurement book", "ebilling", "eprocure", "eprocurement"]

/-- `is_relevant_tender(title, organisation, extra_text)`: lower-case the
space-joined concatenation and test each keyword for substring containment.
For string arguments, Python's `(x or "")` is the identity, so the arguments
are used directly.  The keyword list (the module global `KEYWORDS`) is made
an explicit parameter. -/
def is_relevant_tender (title organisation extra : String)
    (keywords : List String) : Bool :=
  let text := lowerS (title ++ " " ++ organisation ++ " " ++ extra)
  keywords.any (fun k => strContains text (lowerS k))

/-- One `<tr>` of the scraped listing, as handed over by BeautifulSoup: the
stripped text of its `<td>` cells, and the `href` attribute of the first
anchor inside the row when one exists. -/
structure Row where
  cells : List String
  anchorHref : Option String
deriving DecidableEq

/-- One row of the sqlite `tenders` table (all columns except the
`tender_id` primary key, which is the association-list key). -/
structure DbEntry where
  title : String
  organisation : String
  closing_date : String
  link : String
  scraped_at : String
deriving DecidableEq

/-- The sqlite `tenders` table, keyed by the `tender_id` primary key. -/
abbrev Db := List (String × DbEntry)

/-- `tds[i].get_text(strip=True) if len(tds) > i else ""`. -/
def rowCell (row : Row) (i : Nat) : String := row.cells.getD i ""

/-- The `closing_date` column extraction (`tds[4]` guarded by the length). -/
def rowClosingDate (row : Row) : String := rowCell row 4

/-- The link captured from a row: the first anchor's `href`, kept as-is when it
already starts with `"http"`, otherwise resolved against the page address
(`resolve` models `urljoin(url, ·)`); `none` when the row has no anchor. -/
def rowLinkStr (resolve : String → String) (row : Row) : Option String :=
  match row.anchorHref with
  | none => none
  | some h => some (if ("http".data.isPrefixOf h.data) then h else resolve h)

/-- Outcome of processing one row of the listing table. -/
inductive RowResult
  | skipped
  | notMatching
  | inserted
  | duplicate
deriving DecidableEq

/-- One iteration of the `for row in rows` loop of `scrape_latest_tenders`:
rows without cells are skipped; otherwise the defensive column mapping is
applied, the relevance filter is evaluated on title, organisation and the
concatenated cell text, and a relevant row is inserted keyed by `tender_id`
(a duplicate primary key raises `IntegrityError`, which is caught and the row
skipped). -/
def scrapeRow (resolve : String → String) (now : String) (kws : List String)
    (db : Db) (row : Row) : Db × RowResult :=
  if row.cells.isEmpty then (db, RowResult.skipped)
  else
    let tender_id := rowCell row 0
    let title := rowCell row 1
    let organisation := rowCell row 2
    let closing_date := rowClosingDate row
    let link := match rowLinkStr resolve row with | some l => l | none => ""
    let extra := joinSpace row.cells
    if is_relevant_tender title organisation extra kws then
      if alistMem db tender_id then (db, RowResult.duplicate)
      else
        (db ++ [(tender_id,
                 { title := title, organisation := organisation,
                   closing_date := closing_date, link := link,
                   scraped_at := now })],
         RowResult.inserted)
    else (db, RowResult.notMatching)

/-- The row loop, threading the table state and the number of committed
inserts (each successful insert is immediately followed by `conn.commit()`,
so after `k` processed rows the database file on disk equals the in-memory
state at that point). -/
def scrapeRows (resolve : String → String) (now : String) (kws : List String) :
    List Row → Db × Nat → Db × Nat
  | [], s => s
  | row :: rest, s =>
    let step := scrapeRow resolve now kws s.1 row
    scrapeRows resolve now kws rest
      (step.1, if step.2 = RowResult.inserted then s.2 + 1 else s.2)

/-- `scrape_latest_tenders` after the page parse: process every row, starting
from the database loaded at `init_db`, returning the final table and the
number of commits performed. -/
def scrape_latest_tenders (resolve : String → String) (now : String)
    (kws : List String) (rows : List Row) (db : Db) : Db × Nat :=
  scrapeRows resolve now kws rows (db, 0)

/-! ## Spec-side relevance predicate, for comparison with the code -/

/-- Relevance as worded by the specification of the anchor pipeline: true iff
some keyword is a case-insensitive substring of the concatenation of the
record's title plus its secondary string fields (date and snippet for an
anchor-pipeline record).  This definition follows the specification's words;
the code's own filter is `is_relevant` above. -/
def relevantPerSpec (t : Tender) (keywords : List String) : Bool :=
  let dateText := match t.date with | some d => d | none => ""
  let text := lowerS (t.title ++ " " ++ dateText ++ " " ++ t.snippet)
  keywords.any (fun k => strContains text (lowerS k))

/-! ## Concrete instances used to evaluate the pipeline on small inputs -/

/-- Identity resolution (anchors already carrying absolute addresses). -/
def wIdResolve : String → String := fun s => s

/-- A date search that never matches. -/
def wNoDate : String → Option String := fun _ => none

/-- A delivery channel that always fails. -/
def cFalseDeliver : Tender → Bool := fun _ => false

def wAnchorA : Anchor :=
  { text := "etender Alpha works", href := "https://x/a", parentText := none }

def wAnchorB : Anchor :=
  { text := "etender Beta works", href := "https://x/b", parentText := none }

def wDocAB : Doc := { anchors := [wAnchorA, wAnchorB], contentText := "" }

/-- A delivery channel that fails for the first item and succeeds for the
second. -/
def wDeliverB : Tender → Bool := fun t => t.href == "https://x/b"

def wTenderA : Tender := buildTender wIdResolve wNoDate wDocAB wAnchorA

def wTenderB : Tender := buildTender wIdResolve wNoDate wDocAB wAnchorB

/-- An anchor whose title carries no keyword while its parent text does. -/
def cexAnchor : Anchor :=
  { text := "Road Works Notice", href := "https://x/t1",
    parentText := some "Road Works Notice apply via etender portal" }

def cexDoc : Doc := { anchors := [cexAnchor], contentText := "" }

def cexTender : Tender := buildTender wIdResolve wNoDate cexDoc cexAnchor

def cRowA : Row :=
  { cells := ["T1", "etender supply", "Org1", "val", "2025"],
    anchorHref := some "http://e/x1" }

def cRowB : Row :=
  { cells := ["T2", "etender works", "Org2", "val", "2025"],
    anchorHref := some "http://e/x2" }

/-- Two relevant rows whose first anchors resolve to the same address but
whose first cells differ. -/
def cRowL1 : Row :=
  { cells := ["T1", "etender A", "O", "v", "d"], anchorHref := some "/x" }

def cRowL2 : Row :=
  { cells := ["T2", "etender B", "O", "v", "d"], anchorHref := some "/x" }

def cResolve : String → String := fun h => "https://e" ++ h

/-- A row with three cells and no hyperlink. -/
def cRow3 : Row :=
  { cells := ["T9", "etender works", "Org"], anchorHref := none }

/-- A JSON decoder that rejects every payload. -/
def cParseFail : String → Option Store := fun _ => none

/-- A configuration with dry-run off and `SMTP_USER` unset, with recipients
configured. -/
def cCfg : Config :=
  { dryRun := false, smtpHost := some "smtp.host", smtpUser := none,
    smtpPass := some "pw", fromEmail := some "from@x", toEmails := ["a@b.c"] }

def cTransport : String → String → List String → Bool := fun _ _ _ => true

/-! ## Supporting lemmas -/

section AlistLemmas

variable {β : Type}

lemma alistMem_append (l1 l2 : List (String × β)) (k : String) :
    alistMem (l1 ++ l2) k = (alistMem l1 k || alistMem l2 k) := by
  induction l1 with
  | nil => simp [alistMem]
  | cons p rest ih => cases p with
    | mk a b => simp [alistMem, ih, Bool.or_assoc]

lemma alistMem_map_replace (l : List (String × β)) (key k : String) (v : β) :
    alistMem (l.map (fun p => if p.1 == key then (key, v) else p)) k
      = alistMem l k := by
  induction l with
  | nil => rfl
  | cons p rest ih =>
    cases p with
    | mk a b =>
      simp only [List.map_cons]
      by_cases ha : (a == key) = true
      · rw [if_pos ha]
        have haeq : a = key := eq_of_beq ha
        subst haeq
        simp only [alistMem, ih]
      · rw [if_neg ha]
        simp only [alistMem, ih]

lemma alistMem_insert (l : List (String × β)) (key k : String) (v : β) :
    alistMem (alistInsert l key v) k = (alistMem l k || (key == k)) := by
  unfold alistInsert
  by_cases hm : alistMem l key = true
  · rw [if_pos hm, alistMem_map_replace]
    by_cases hk : (key == k) = true
    · have hkeq : key = k := eq_of_beq hk
      subst hkeq
      rw [hm, hk]
      rfl
    · rw [Bool.eq_false_iff.mpr hk, Bool.or_false]
  · rw [if_neg hm, alistMem_append]
    simp only [alistMem, Bool.or_false]

lemma alistLookup_append (l1 l2 : List (String × β)) (k : String) :
    alistLookup (l1 ++ l2) k = (alistLookup l1 k).or (alistLookup l2 k) := by
  induction l1 with
  | nil => simp [alistLookup]
  | cons p rest ih =>
    cases p with
    | mk a b =>
      by_cases ha : (a == k) = true
      · simp [alistLookup, ha]
      · simp [alistLookup, ha, ih]

lemma alistLookup_eq_none_of_not_mem (l : List (String × β)) (k : String)
    (h : alistMem l k = false) : alistLookup l k = none := by
  induction l with
  | nil => rfl
  | cons p rest ih =>
    cases p with
    | mk a b =>
      rw [alistMem] at h
      rcases Bool.or_eq_false_iff.mp h with ⟨h1, h2⟩
      simp [alistLookup, h1, ih h2]

lemma alistLookup_map_replace_self (l : List (String × β)) (key : String) (v : β)
    (h : alistMem l key = true) :
    alistLookup (l.map (fun p => if p.1 == key then (key, v) else p)) key
      = some v := by
  induction l with
  | nil => simp [alistMem] at h
  | cons p rest ih =>
    cases p with
    | mk a b =>
      simp only [List.map_cons]
      by_cases ha : (a == key) = true
      · rw [if_pos ha]
        simp [alistLookup]
      · rw [if_neg ha]
        rw [alistMem, Bool.or_eq_true] at h
        rcases h with h1 | h2
        · exact absurd h1 ha
        · rw [alistLookup, if_neg ha]
          exact ih h2

lemma alistLookup_map_replace_other (l : List (String × β)) (key k : String)
    (v : β) (hk : (key == k) = false) :
    alistLookup (l.map (fun p => if p.1 == key then (key, v) else p)) k
      = alistLookup l k := by
  induction l with
  | nil => rfl
  | cons p rest ih =>
    cases p with
    | mk a b =>
      simp only [List.map_cons]
      by_cases ha : (a == key) = true
      · rw [if_pos ha]
        have haeq : a = key := eq_of_beq ha
        subst haeq
        rw [alistLookup, alistLookup, if_neg (by rw [hk]; exact Bool.false_ne_true),
            if_neg (by rw [hk]; exact Bool.false_ne_true)]
        exact ih
      · rw [if_neg ha]
        rw [alistLookup, alistLookup]
        by_cases hak : (a == k) = true
        · rw [if_pos hak, if_pos hak]
        · rw [if_neg hak, if_neg hak]
          exact ih

lemma alistLookup_insert_self (l : List (String × β)) (key : String) (v : β) :
    alistLookup (alistInsert l key v) key = some v := by
  unfold alistInsert
  by_cases hm : alistMem l key = true
  · rw [if_pos hm]
    exact alistLookup_map_replace_self l key v hm
  · rw [if_neg hm]
    rw [alistLookup_append,
        alistLookup_eq_none_of_not_mem l key (Bool.eq_false_iff.mpr hm)]
    simp [alistLookup]

lemma alistLookup_insert_other (l : List (String × β)) (key k : String) (v : β)
    (hk : (key == k) = false) :
    alistLookup (alistInsert l key v) k = alistLookup l k := by
  unfold alistInsert
  by_cases hm : alistMem l key = true
  · rw [if_pos hm]
    exact alistLookup_map_replace_other l key k v hk
  · rw [if_neg hm, alistLookup_append]
    simp [alistLookup, hk]

lemma not_mem_keys_of_alistMem_false (l : List (String × β)) (k : String)
    (h : alistMem l k = false) : k ∉ l.map Prod.fst := by
  induction l with
  | nil => simp
  | cons p rest ih =>
    cases p with
    | mk a b =>
      rw [alistMem] at h
      rcases Bool.or_eq_false_iff.mp h with ⟨h1, h2⟩
      simp only [List.map_cons, List.mem_cons]
      rintro (rfl | hmem)
      · exact absurd rfl (beq_eq_false_iff_ne.mp h1).symm
      · exact ih h2 hmem

lemma nodup_keys_append_singleton (l : List (String × β)) (k : String) (v : β)
    (h : (l.map Prod.fst).Nodup) (hk : alistMem l k = false) :
    ((l ++ [(k, v)]).map Prod.fst).Nodup := by
  rw [List.map_append, List.nodup_append]
  refine ⟨h, by simp, ?_⟩
  intro a ha hb
  simp only [List.map_cons, List.map_nil, List.mem_singleton] at hb
  subst hb
  exact not_mem_keys_of_alistMem_false l a hk ha

end AlistLemmas

section NotifyLoopLemmas

lemma alistMem_notifyLoop_mono (d : Tender → Bool) (n : String)
    (items : List Tender) (seen : Store) (k : String)
    (h : alistMem seen k = true) :
    alistMem (notifyLoop d n items seen) k = true := by
  induction items generalizing seen with
  | nil => exact h
  | cons t rest ih =>
    rw [notifyLoop]
    exact ih _ (by rw [alistMem_insert, h]; rfl)

lemma alistMem_notifyLoop_self (d : Tender → Bool) (n : String)
    (items : List Tender) (seen : Store) (t : Tender) (ht : t ∈ items) :
    alistMem (notifyLoop d n items seen) t.href = true := by
  induction items generalizing seen with
  | nil => cases ht
  | cons t0 rest ih =>
    rw [notifyLoop]
    rcases List.mem_cons.mp ht with rfl | hm
    · exact alistMem_notifyLoop_mono d n rest _ t.href
        (by rw [alistMem_insert]; simp)
    · exact ih _ hm

lemma alistLookup_notifyLoop_not_mem (d : Tender → Bool) (n : String)
    (items : List Tender) (seen : Store) (k : String)
    (h : ∀ t ∈ items, (t.href == k) = false) :
    alistLookup (notifyLoop d n items seen) k = alistLookup seen k := by
  induction items generalizing seen with
  | nil => rfl
  | cons t0 rest ih =>
    rw [notifyLoop, ih _ (fun t ht => h t (List.mem_cons_of_mem _ ht)),
        alistLookup_insert_other _ _ _ _ (h t0 (List.mem_cons_self _ _))]

lemma alistLookup_notifyLoop_self (d : Tender → Bool) (n : String)
    (items : List Tender) (seen : Store) (t : Tender)
    (hnd : (items.map Tender.href).Nodup) (ht : t ∈ items) :
    alistLookup (notifyLoop d n items seen) t.href
      = some (mkSeenEntry t (d t) n) := by
  induction items generalizing seen with
  | nil => cases ht
  | cons t0 rest ih =>
    rw [List.map_cons, List.nodup_cons] at hnd
    rcases List.mem_cons.mp ht with rfl | hm
    · rw [notifyLoop]
      rw [alistLookup_notifyLoop_not_mem]
      · exact alistLookup_insert_self _ _ _
      · intro u hu
        refine beq_eq_false_iff_ne.mpr (fun he => hnd.1 ?_)
        rw [← he]
        exact List.mem_map_of_mem Tender.href hu
    · rw [notifyLoop]
      exact ih _ hnd.2 hm

end NotifyLoopLemmas

section ParseLemmas

variable (resolve : String → String) (ds : String → Option String) (doc : Doc)

lemma href_not_mem_of_any_false (acc : List Tender) (x : String)
    (h : acc.any (fun r => r.href == x) = false) :
    x ∉ acc.map Tender.href := by
  intro hmem
  rcases List.mem_map.mp hmem with ⟨r, hr, hrx⟩
  have : acc.any (fun r => r.href == x) = true :=
    List.any_eq_true.mpr ⟨r, hr, by rw [hrx]; exact beq_self_eq_true x⟩
  rw [h] at this
  exact Bool.false_ne_true this

lemma parseFold_nodup (l : List Anchor) (acc : List Tender)
    (h : (acc.map Tender.href).Nodup) :
    ((l.foldl (parseStep resolve ds doc) acc).map Tender.href).Nodup := by
  induction l generalizing acc with
  | nil => exact h
  | cons a rest ih =>
    rw [List.foldl_cons]
    apply ih
    unfold parseStep
    by_cases h1 : (a.text == "" || decide (a.text.length < 6)) = true
    · rw [if_pos h1]
      exact h
    · rw [if_neg h1]
      by_cases h2 : acc.any (fun r => r.href == resolve a.href) = true
      · rw [if_pos h2]
        exact h
      · rw [if_neg h2]
        rw [List.map_append, List.nodup_append]
        refine ⟨h, by simp, ?_⟩
        intro x hx hb
        simp only [List.map_cons, List.map_nil, List.mem_singleton] at hb
        subst hb
        exact href_not_mem_of_any_false acc _ (Bool.eq_false_iff.mpr h2) hx

lemma parseFold_find (h : String) (l : List Anchor) (acc : List Tender) :
    List.find? (fun r => r.href == h) (l.foldl (parseStep resolve ds doc) acc)
      = (List.find? (fun r => r.href == h) acc).or
          ((List.find? (fun a => anchorTitleOk a && (resolve a.href == h)) l).map
            (buildTender resolve ds doc)) := by
  induction l generalizing acc with
  | nil => simp
  | cons a rest ih =>
    rw [List.foldl_cons, ih]
    unfold parseStep
    by_cases h1 : (a.text == "" || decide (a.text.length < 6)) = true
    · rw [if_pos h1]
      have hpred : (anchorTitleOk a && (resolve a.href == h)) = false := by
        rw [anchorTitleOk, h1]
        rfl
      rw [List.find?_cons, hpred]
    · rw [if_neg h1]
      have hok : anchorTitleOk a = true := by
        rw [anchorTitleOk, Bool.eq_false_iff.mpr h1]
        rfl
      by_cases h2 : acc.any (fun r => r.href == resolve a.href) = true
      · rw [if_pos h2]
        by_cases h3 : (resolve a.href == h) = true
        · rcases List.any_eq_true.mp h2 with ⟨r, hr, hrh⟩
          have hracc : (List.find? (fun r => r.href == h) acc).isSome := by
            rw [List.find?_isSome]
            exact ⟨r, hr, by rw [eq_of_beq hrh, h3]⟩
          rcases Option.isSome_iff_exists.mp hracc with ⟨v, hv⟩
          rw [hv]
          rfl
        · rw [List.find?_cons]
          have hpred : (anchorTitleOk a && (resolve a.href == h)) = false := by
            rw [hok, Bool.eq_false_iff.mpr h3]
            rfl
          rw [hpred]
      · rw [if_neg h2]
        rw [List.find?_append]
        by_cases h3 : (resolve a.href == h) = true
        · have hbh : List.find? (fun r => r.href == h)
              [buildTender resolve ds doc a] = some (buildTender resolve ds doc a) := by
            rw [List.find?_cons]
            have : ((buildTender resolve ds doc a).href == h) = true := by
              rw [buildTender]
              exact h3
            rw [this]
          have hacc : List.find? (fun r => r.href == h) acc = none := by
            rw [List.find?_eq_none]
            intro x hx hxh
            have : acc.any (fun r => r.href == resolve a.href) = true :=
              List.any_eq_true.mpr ⟨x, hx, by rw [eq_of_beq h3]; exact hxh⟩
            exact h2 this
          have hpred : (anchorTitleOk a && (resolve a.href == h)) = true := by
            rw [hok, h3]
            rfl
          rw [hbh, hacc, List.find?_cons, hpred]
          rfl
        · have hbh : List.find? (fun r => r.href == h)
              [buildTender resolve ds doc a] = none := by
            rw [List.find?_cons]
            have : ((buildTender resolve ds doc a).href == h) = false := by
              rw [buildTender]
              exact Bool.eq_false_iff.mpr h3
            rw [this]
            rfl
          have hpred : (anchorTitleOk a && (resolve a.href == h)) = false := by
            rw [hok, Bool.eq_false_iff.mpr h3]
            rfl
          rw [hbh, Option.or_none, List.find?_cons, hpred]

lemma parse_tenders_href_nodup :
    ((parse_tenders resolve ds doc).map Tender.href).Nodup :=
  parseFold_nodup resolve ds doc doc.anchors [] (by simp)

lemma parse_tenders_find (h : String) :
    List.find? (fun r => r.href == h) (parse_tenders resolve ds doc)
      = (List.find? (fun a => anchorTitleOk a && (resolve a.href == h))
          doc.anchors).map (buildTender resolve ds doc) := by
  rw [parse_tenders, parseFold_find]
  rfl

end ParseLemmas

section PipelineLemmas

variable (resolve : String → String) (ds : String → Option String)
variable (deliver : Tender → Bool) (now : String)
variable (doc : Doc) (kws : List String) (seen0 : Store)

lemma runPipeline_tenders :
    (runPipeline resolve ds deliver now doc kws seen0).tenders
      = parse_tenders resolve ds doc := rfl

lemma runPipeline_relevant :
    (runPipeline resolve ds deliver now doc kws seen0).relevant
      = (parse_tenders resolve ds doc).filter
          (fun t => is_relevant t.title kws) := rfl

lemma runPipeline_newItems :
    (runPipeline resolve ds deliver now doc kws seen0).newItems
      = ((parse_tenders resolve ds doc).filter
          (fun t => is_relevant t.title kws)).filter
          (fun t => !(alistMem seen0 t.href)) := rfl

lemma runPipeline_finalStore :
    (runPipeline resolve ds deliver now doc kws seen0).finalStore
      = notifyLoop deliver now
          (runPipeline resolve ds deliver now doc kws seen0).newItems seen0 := rfl

lemma runPipeline_trace :
    (runPipeline resolve ds deliver now doc kws seen0).trace
      = (runPipeline resolve ds deliver now doc kws seen0).newItems.map
          (fun t => Effect.notify (subjectOf t))
        ++ [Effect.save
              (runPipeline resolve ds deliver now doc kws seen0).finalStore] := rfl

lemma runPipeline_newItems_href_nodup :
    ((runPipeline resolve ds deliver now doc kws seen0).newItems.map
        Tender.href).Nodup := by
  rw [runPipeline_newItems]
  have hsub : (((parse_tenders resolve ds doc).filter
      (fun t => is_relevant t.title kws)).filter
      (fun t => !(alistMem seen0 t.href))).Sublist
        (parse_tenders resolve ds doc) :=
    (List.filter_sublist _).trans (List.filter_sublist _)
  exact (hsub.map Tender.href).nodup (parse_tenders_href_nodup resolve ds doc)

lemma runPipeline_lookup_newItem (t : Tender)
    (ht : t ∈ (runPipeline resolve ds deliver now doc kws seen0).newItems) :
    alistLookup (runPipeline resolve ds deliver now doc kws seen0).finalStore
        t.href = some (mkSeenEntry t (deliver t) now) := by
  rw [runPipeline_finalStore]
  exact alistLookup_notifyLoop_self deliver now _ seen0 t
    (runPipeline_newItems_href_nodup resolve ds deliver now doc kws seen0) ht

lemma runPipeline_relevant_mem_finalStore (t : Tender)
    (ht : t ∈ (runPipeline resolve ds deliver now doc kws seen0).relevant) :
    alistMem (runPipeline resolve ds deliver now doc kws seen0).finalStore
        t.href = true := by
  rw [runPipeline_finalStore]
  by_cases hm : alistMem seen0 t.href = true
  · exact alistMem_notifyLoop_mono deliver now _ seen0 t.href hm
  · refine alistMem_notifyLoop_self deliver now _ seen0 t ?_
    rw [runPipeline_newItems]
    rw [runPipeline_relevant] at ht
    exact List.mem_filter.mpr ⟨ht, by rw [Bool.eq_false_iff.mpr hm]; rfl⟩

end PipelineLemmas

section TraceLemmas

lemma persistedAfter_no_save (p0 : Store) (l : List Effect)
    (h : ∀ e ∈ l, isSaveE e = false) : persistedAfter p0 l = p0 := by
  induction l with
  | nil => rfl
  | cons e rest ih =>
    cases e with
    | notify s =>
      rw [persistedAfter]
      exact ih (fun e he => h e (List.mem_cons_of_mem _ he))
    | save s =>
      have := h _ (List.mem_cons_self _ _)
      simp [isSaveE] at this

end TraceLemmas

section SubstrLemmas

lemma hasSubstr_iff (p l : List Char) :
    hasSubstr p l = true ↔ ∃ l1 l2, l = l1 ++ p ++ l2 := by
  induction l with
  | nil =>
    rw [hasSubstr, List.isEmpty_iff]
    constructor
    · rintro rfl
      exact ⟨[], [], rfl⟩
    · rintro ⟨l1, l2, hl⟩
      rcases List.append_eq_nil.mp (List.append_eq_nil.mp hl.symm).1 with ⟨-, h2⟩
      exact h2
  | cons c t ih =>
    rw [hasSubstr, Bool.or_eq_true, ih, List.isPrefixOf_iff_prefix]
    constructor
    · rintro (⟨r, hr⟩ | ⟨l1, l2, rfl⟩)
      · exact ⟨[], r, by rw [← hr]; rfl⟩
      · exact ⟨c :: l1, l2, rfl⟩
    · rintro ⟨l1, l2, heq⟩
      cases l1 with
      | nil =>
        exact Or.inl ⟨l2, by rw [heq]; rfl⟩
      | cons c' l1' =>
        rw [List.cons_append, List.cons_append, List.cons_eq_cons] at heq
        exact Or.inr ⟨l1', l2, heq.2⟩

lemma strContains_iff (s pat : String) :
    strContains s pat = true ↔ ∃ l r, s.data = l ++ pat.data ++ r :=
  hasSubstr_iff pat.data s.data

end SubstrLemmas

section ScrapeLemmas

variable (resolve : String → String) (now : String) (kws : List String)

lemma scrapeRow_nodup_pres (db : Db) (row : Row)
    (h : (db.map Prod.fst).Nodup) :
    (((scrapeRow resolve now kws db row).1).map Prod.fst).Nodup := by
  rw [scrapeRow]
  by_cases h0 : row.cells.isEmpty = true
  · rw [if_pos h0]
    exact h
  · rw [if_neg h0]
    by_cases h1 : is_relevant_tender (rowCell row 1) (rowCell row 2)
        (joinSpace row.cells) kws = true
    · rw [if_pos h1]
      by_cases h2 : alistMem db (rowCell row 0) = true
      · rw [if_pos h2]
        exact h
      · rw [if_neg h2]
        exact nodup_keys_append_singleton db _ _ h (Bool.eq_false_iff.mpr h2)
    · rw [if_neg h1]
      exact h

lemma scrapeRow_lookup_pres (db : Db) (row : Row) (k : String) (v : DbEntry)
    (hv : alistLookup db k = some v) :
    alistLookup (scrapeRow resolve now kws db row).1 k = some v := by
  rw [scrapeRow]
  by_cases h0 : row.cells.isEmpty = true
  · rw [if_pos h0]
    exact hv
  · rw [if_neg h0]
    by_cases h1 : is_relevant_tender (rowCell row 1) (rowCell row 2)
        (joinSpace row.cells) kws = true
    · rw [if_pos h1]
      by_cases h2 : alistMem db (rowCell row 0) = true
      · rw [if_pos h2]
        exact hv
      · rw [if_neg h2]
        rw [alistLookup_append, hv]
        rfl
    · rw [if_neg h1]
      exact hv

lemma scrapeRows_nodup_lookup (rows : List Row) (db : Db) (c : Nat)
    (h : (db.map Prod.fst).Nodup) :
    (((scrapeRows resolve now kws rows (db, c)).1).map Prod.fst).Nodup ∧
    ∀ k v, alistLookup db k = some v →
      alistLookup (scrapeRows resolve now kws rows (db, c)).1 k = some v := by
  induction rows generalizing db c with
  | nil => exact ⟨h, fun k v hv => hv⟩
  | cons row rest ih =>
    rw [scrapeRows]
    rcases ih (scrapeRow resolve now kws db row).1
        (if (scrapeRow resolve now kws db row).2 = RowResult.inserted
         then c + 1 else c)
        (scrapeRow_nodup_pres resolve now kws db row h) with ⟨hn, hl⟩
    exact ⟨hn, fun k v hv =>
      hl k v (scrapeRow_lookup_pres resolve now kws db row k v hv)⟩

end ScrapeLemmas

/-! ## Claim theorems -/

/-- C1: Idempotence of the pipeline.  For every document, keyword set and
initial seen store, running `main` once and then a second time over the same
unchanged document against the store persisted by the first run computes an
empty `new_items` list on the second run and makes zero notification
attempts, since every relevant candidate's identity was inserted by the
first run. -/
theorem pipeline_idempotent (resolve : String → String)
    (ds : String → Option String) (d1 d2 : Tender → Bool) (n1 n2 : String)
    (doc : Doc) (kws : List String) (seen0 : Store) :
    (runPipeline resolve ds d2 n2 doc kws
        (runPipeline resolve ds d1 n1 doc kws seen0).finalStore).newItems = []
    ∧ (runPipeline resolve ds d2 n2 doc kws
        (runPipeline resolve ds d1 n1 doc kws seen0).finalStore).trace.filter
        isNotifyE = [] := by
  have hnew : (runPipeline resolve ds d2 n2 doc kws
      (runPipeline resolve ds d1 n1 doc kws seen0).finalStore).newItems = [] := by
    rw [runPipeline_newItems, List.filter_eq_nil_iff]
    intro t ht
    have hmem : alistMem
        (runPipeline resolve ds d1 n1 doc kws seen0).finalStore t.href = true := by
      apply runPipeline_relevant_mem_finalStore resolve ds d1 n1 doc kws seen0 t
      rw [runPipeline_relevant]
      exact ht
    rw [hmem]
    simp
  refine ⟨hnew, ?_⟩
  rw [runPipeline_trace, hnew]
  simp [isNotifyE]

/-- C2: Delivery-failure isolation.  For every run and every item of
`new_items`, the final seen mapping contains an entry keyed by that item's
identity whose `notified` field equals that item's own delivery outcome; in
particular a failed earlier item and a successful later item are both
present, with `notified` false and true respectively, each unaffected by the
other. -/
theorem run_failure_isolation (resolve : String → String)
    (ds : String → Option String) (deliver : Tender → Bool) (now : String)
    (doc : Doc) (kws : List String) (seen0 : Store) (t : Tender)
    (ht : t ∈ (runPipeline resolve ds deliver now doc kws seen0).newItems) :
    alistLookup (runPipeline resolve ds deliver now doc kws seen0).finalStore
        t.href = some (mkSeenEntry t (deliver t) now) :=
  runPipeline_lookup_newItem resolve ds deliver now doc kws seen0 t ht

/-- Witness for C2 at a concrete two-item run where delivery fails for the
first item and succeeds for the second: both end up in the final mapping,
the first with `notified` false, the second with `notified` true. -/
theorem run_failure_isolation_witness :
    alistLookup (runPipeline wIdResolve wNoDate wDeliverB "now" wDocAB
        ["etender"] []).finalStore "https://x/a"
      = some (mkSeenEntry wTenderA false "now")
    ∧ alistLookup (runPipeline wIdResolve wNoDate wDeliverB "now" wDocAB
        ["etender"] []).finalStore "https://x/b"
      = some (mkSeenEntry wTenderB true "now") :=
  ⟨run_failure_isolation wIdResolve wNoDate wDeliverB "now" wDocAB ["etender"]
      [] wTenderA (by decide),
   run_failure_isolation wIdResolve wNoDate wDeliverB "now" wDocAB ["etender"]
      [] wTenderB (by decide)⟩

/-- C3 counterexample: the claim states that `is_relevant` is true exactly
when some keyword occurs in the concatenation of the title and the secondary
fields.  At this concrete record the keyword occurs in the snippet but not in
the title, the spec-side predicate is true, yet `is_relevant` applied as the
pipeline applies it (to the title alone) is false and the pipeline keeps no
record. -/
theorem relevance_title_only_cex :
    relevantPerSpec cexTender ["etender"] = true
    ∧ is_relevant cexTender.title ["etender"] = false
    ∧ (runPipeline wIdResolve wNoDate cFalseDeliver "now" cexDoc ["etender"]
        []).relevant = [] := by
  refine ⟨by decide, by decide, by decide⟩

/-- C3 (amended): in the anchor pipeline, `is_relevant` returns true iff some
non-empty keyword is a case-insensitive substring of the lower-cased string
it is given (the title alone at its call site); in the tabular pipeline,
`is_relevant_tender` returns true iff some keyword is a case-insensitive
substring of the lower-cased concatenation of title, organisation and extra
cell text. -/
theorem relevance_filter_scope :
    (∀ title kws, is_relevant title kws = true ↔
      ∃ k ∈ kws, k ≠ "" ∧
        ∃ l r, (lowerS title).data = l ++ (lowerS k).data ++ r)
    ∧ (∀ t o e kws, is_relevant_tender t o e kws = true ↔
      ∃ k ∈ kws,
        ∃ l r, (lowerS (t ++ " " ++ o ++ " " ++ e)).data
                 = l ++ (lowerS k).data ++ r) := by
  constructor
  · intro title kws
    rw [is_relevant, List.any_eq_true]
    constructor
    · rintro ⟨k, hk, hprop⟩
      rw [Bool.and_eq_true, Bool.not_eq_true'] at hprop
      exact ⟨k, hk, beq_eq_false_iff_ne.mp hprop.1,
        (strContains_iff _ _).mp hprop.2⟩
    · rintro ⟨k, hk, hne, hsub⟩
      refine ⟨k, hk, ?_⟩
      rw [Bool.and_eq_true, Bool.not_eq_true']
      exact ⟨beq_eq_false_iff_ne.mpr hne, (strContains_iff _ _).mpr hsub⟩
  · intro t o e kws
    show (kws.any _) = true ↔ _
    rw [List.any_eq_true]
    constructor
    · rintro ⟨k, hk, hprop⟩
      exact ⟨k, hk, (strContains_iff _ _).mp hprop⟩
    · rintro ⟨k, hk, hsub⟩
      exact ⟨k, hk, (strContains_iff _ _).mpr hsub⟩

/-- C4 counterexample: the claim says every run writes the persistent store
exactly once, at the end.  The tabular run over two relevant rows commits two
writes, and the store persisted after the first row (an interruption point
before the run ends) differs from its pre-run empty value. -/
theorem tabular_incremental_persistence_cex :
    (scrape_latest_tenders wIdResolve "now" ["etender"] [cRowA, cRowB] []).2 = 2
    ∧ (scrape_latest_tenders wIdResolve "now" ["etender"] [cRowA] []).1 ≠ [] := by
  refine ⟨by decide, by decide⟩

/-- C4 (amended): in the anchor pipeline (`demonstrate.py`), the store is
written exactly once per run — the trace contains a single save of the full
final mapping, it is the last effect, and interrupting the run at any point
before it leaves the persisted store at its pre-run value.  (The tabular
pipeline instead commits incrementally per inserted row, see the
counterexample.) -/
theorem anchor_pipeline_single_save (resolve : String → String)
    (ds : String → Option String) (deliver : Tender → Bool) (now : String)
    (doc : Doc) (kws : List String) (seen0 p0 : Store) :
    (runPipeline resolve ds deliver now doc kws seen0).trace.filter isSaveE
      = [Effect.save (runPipeline resolve ds deliver now doc kws seen0).finalStore]
    ∧ (runPipeline resolve ds deliver now doc kws seen0).trace.getLast?
      = some (Effect.save
          (runPipeline resolve ds deliver now doc kws seen0).finalStore)
    ∧ ∀ k, k < (runPipeline resolve ds deliver now doc kws seen0).trace.length →
        persistedAfter p0
          ((runPipeline resolve ds deliver now doc kws seen0).trace.take k) = p0 := by
  refine ⟨?_, ?_, ?_⟩
  · rw [runPipeline_trace, List.filter_append]
    have h1 : ((runPipeline resolve ds deliver now doc kws seen0).newItems.map
        (fun t => Effect.notify (subjectOf t))).filter isSaveE = [] := by
      rw [List.filter_eq_nil_iff]
      intro e he
      rcases List.mem_map.mp he with ⟨t, -, rfl⟩
      simp [isSaveE]
    rw [h1]
    rfl
  · rw [runPipeline_trace]
    exact List.getLast?_concat _
  · intro k hk
    rw [runPipeline_trace] at hk ⊢
    rw [List.length_append, List.length_cons, List.length_nil] at hk
    have hle : k ≤ ((runPipeline resolve ds deliver now doc kws
        seen0).newItems.map (fun t => Effect.notify (subjectOf t))).length :=
      Nat.lt_succ_iff.mp hk
    rw [List.take_append_eq_append_take, Nat.sub_eq_zero_of_le hle,
        List.take_zero, List.append_nil]
    apply persistedAfter_no_save
    intro e he
    rcases List.mem_map.mp (List.take_subset k _ he) with ⟨t, -, rfl⟩
    rfl

/-- Witness for C4 (amended) at a concrete one-item run: interrupting after
the single notify effect (index 1 of a length-2 trace) leaves the persisted
store at its pre-run value. -/
theorem anchor_pipeline_single_save_witness :
    persistedAfter [] ((runPipeline wIdResolve wNoDate cFalseDeliver "now"
      cexDoc ["road"] []).trace.take 1) = [] :=
  (anchor_pipeline_single_save wIdResolve wNoDate cFalseDeliver "now" cexDoc
    ["road"] [] []).2.2 1 (by decide)

/-- C5 counterexample: the claim says the tabular store's deduplication key is
the row's resolved first hyperlink.  These two relevant rows resolve to the
same absolute link yet both are stored (two entries with the same link),
because the primary key actually is the first cell's `tender_id`. -/
theorem tabular_link_identity_cex :
    ((scrape_latest_tenders cResolve "now" ["etender"] [cRowL1, cRowL2]
        []).1.map (fun p => p.2.link)) = ["https://e/x", "https://e/x"]
    ∧ ((scrape_latest_tenders cResolve "now" ["etender"] [cRowL1, cRowL2]
        []).1.map Prod.fst) = ["T1", "T2"] := by
  refine ⟨by decide, by decide⟩

/-- C5 (amended): in the tabular pipeline the deduplication key is the row's
first cell text (`tender_id`, the sqlite primary key): keys stay pairwise
distinct and an existing entry is never overwritten (the first row with a
given `tender_id` wins); the stored `link` field is the row's first
hyperlink's resolved address, the empty string when the row has no
hyperlink. -/
theorem tabular_dedup_by_primary_key (resolve : String → String) (now : String)
    (kws : List String) (rows : List Row) (db : Db) (c : Nat)
    (h : (db.map Prod.fst).Nodup) :
    (((scrapeRows resolve now kws rows (db, c)).1).map Prod.fst).Nodup
    ∧ (∀ k v, alistLookup db k = some v →
        alistLookup (scrapeRows resolve now kws rows (db, c)).1 k = some v)
    ∧ (∀ row : Row, row.anchorHref = none →
        (rowLinkStr resolve row).getD "" = "") := by
  rcases scrapeRows_nodup_lookup resolve now kws rows db c h with ⟨h1, h2⟩
  refine ⟨h1, h2, ?_⟩
  intro row hrow
  rw [rowLinkStr, hrow]
  rfl

/-- Witness for C5 (amended) at a concrete run from the empty database, and
at a concrete hyperlink-free row. -/
theorem tabular_dedup_by_primary_key_witness :
    (((scrapeRows wIdResolve "now" ["etender"] [cRowA, cRowB]
        ([], 0)).1).map Prod.fst).Nodup
    ∧ (rowLinkStr wIdResolve cRow3).getD "" = "" :=
  ⟨(tabular_dedup_by_primary_key wIdResolve "now" ["etender"] [cRowA, cRowB]
      [] 0 (by simp)).1,
   (tabular_dedup_by_primary_key wIdResolve "now" ["etender"] [cRowA, cRowB]
      [] 0 (by simp)).2.2 cRow3 rfl⟩

/-- C6: Anchor-extraction deduplication.  For every document and resolution,
the extractor's output carries pairwise-distinct resolved identities, and the
record found for an identity is exactly the one built from the first anchor
in document order that passes the title filter and resolves to it. -/
theorem parse_tenders_dedup_first (resolve : String → String)
    (ds : String → Option String) (doc : Doc) :
    ((parse_tenders resolve ds doc).map Tender.href).Nodup
    ∧ ∀ h : String,
        List.find? (fun r => r.href == h) (parse_tenders resolve ds doc)
          = (List.find? (fun a => anchorTitleOk a && (resolve a.href == h))
              doc.anchors).map (buildTender resolve ds doc) :=
  ⟨parse_tenders_href_nodup resolve ds doc,
   fun h => parse_tenders_find resolve ds doc h⟩

/-- C7: Relevance vacuity.  With an empty keyword set both relevance filters
return false on every input, and a pipeline run keeps zero relevant
records regardless of document content. -/
theorem empty_keywords_vacuous :
    (∀ title, is_relevant title [] = false)
    ∧ (∀ t o e, is_relevant_tender t o e [] = false)
    ∧ (∀ (resolve : String → String) (ds : String → Option String)
        (deliver : Tender → Bool) (now : String) (doc : Doc) (seen0 : Store),
        (runPipeline resolve ds deliver now doc [] seen0).relevant = []) := by
  refine ⟨fun title => rfl, fun t o e => rfl, ?_⟩
  intro resolve ds deliver now doc seen0
  rw [runPipeline_relevant, List.filter_eq_nil_iff]
  intro t ht
  rw [show is_relevant t.title [] = false from rfl]
  simp

/-- C8: Seen-store load semantics.  `load_seen` returns the empty mapping
when no persisted file exists (never raising on a missing file), raises
exactly when an existing payload is malformed, and performs no write to the
stored state. -/
theorem load_seen_semantics (parse : String → Option Store)
    (fs : Option String) :
    (loadSeen parse fs).2 = fs
    ∧ (fs = none → loadSeen parse fs = (Except.ok [], none))
    ∧ (exceptIsError (loadSeen parse fs).1 = true ↔
        ∃ raw, fs = some raw ∧ parse raw = none) := by
  cases fs with
  | none =>
    refine ⟨rfl, fun _ => rfl, ?_⟩
    constructor
    · intro h
      simp [loadSeen, exceptIsError] at h
    · rintro ⟨raw, hraw, -⟩
      exact Option.noConfusion hraw
  | some raw =>
    cases hp : parse raw with
    | some m =>
      refine ⟨by simp [loadSeen, hp], fun h => Option.noConfusion h, ?_⟩
      constructor
      · intro h
        rw [loadSeen] at h
        rw [hp] at h
        simp [exceptIsError] at h
      · rintro ⟨raw', hr, hpr⟩
        injection hr with hr'
        subst hr'
        rw [hp] at hpr
        exact Option.noConfusion hpr
    | none =>
      refine ⟨by simp [loadSeen, hp], fun h => Option.noConfusion h, ?_⟩
      constructor
      · intro _
        exact ⟨raw, rfl, hp⟩
      · intro _
        rw [loadSeen, hp]
        rfl

/-- Witness for C8: a missing file loads as the empty mapping, and a file
whose payload the decoder rejects raises. -/
theorem load_seen_semantics_witness :
    loadSeen cParseFail none = (Except.ok [], none)
    ∧ exceptIsError (loadSeen cParseFail (some "bad")).1 = true :=
  ⟨(load_seen_semantics cParseFail none).2.1 rfl,
   (load_seen_semantics cParseFail (some "bad")).2.2.mpr ⟨"bad", rfl, rfl⟩⟩

/-- C9: Defensive tabular column mapping.  For every row with at least one
cell and fewer than five cells, the extracted `closing_date` is the empty
string (and any out-of-range column yields the empty string), the row is not
skipped, and it is still evaluated by the relevance filter on its remaining
fields (the outcome is the not-matching result exactly when the filter says
so). -/
theorem defensive_column_mapping (resolve : String → String) (now : String)
    (kws : List String) (db : Db) (row : Row)
    (h1 : row.cells ≠ []) (h2 : row.cells.length ≤ 4) :
    rowClosingDate row = ""
    ∧ (∀ i, row.cells.length ≤ i → rowCell row i = "")
    ∧ (scrapeRow resolve now kws db row).2 ≠ RowResult.skipped
    ∧ ((scrapeRow resolve now kws db row).2 = RowResult.notMatching ↔
        is_relevant_tender (rowCell row 1) (rowCell row 2)
          (joinSpace row.cells) kws = false) := by
  have hgen : ∀ i, row.cells.length ≤ i → rowCell row i = "" :=
    fun i hi => List.getD_eq_default _ _ hi
  have hempty : row.cells.isEmpty = false := by
    cases hc : row.cells with
    | nil => exact absurd hc h1
    | cons a t => rfl
  have hne : ¬(row.cells.isEmpty = true) := by
    rw [hempty]
    exact Bool.false_ne_true
  refine ⟨hgen 4 h2, hgen, ?_, ?_⟩
  · rw [scrapeRow, if_neg hne]
    by_cases hrel : is_relevant_tender (rowCell row 1) (rowCell row 2)
        (joinSpace row.cells) kws = true
    · rw [if_pos hrel]
      by_cases hd : alistMem db (rowCell row 0) = true
      · rw [if_pos hd]
        exact fun hcon => RowResult.noConfusion hcon
      · rw [if_neg hd]
        exact fun hcon => RowResult.noConfusion hcon
    · rw [if_neg hrel]
      exact fun hcon => RowResult.noConfusion hcon
  · rw [scrapeRow, if_neg hne]
    by_cases hrel : is_relevant_tender (rowCell row 1) (rowCell row 2)
        (joinSpace row.cells) kws = true
    · rw [if_pos hrel]
      by_cases hd : alistMem db (rowCell row 0) = true
      · rw [if_pos hd]
        constructor
        · intro hcon
          exact RowResult.noConfusion hcon
        · intro hcon
          rw [hrel] at hcon
          exact Bool.noConfusion hcon
      · rw [if_neg hd]
        constructor
        · intro hcon
          exact RowResult.noConfusion hcon
        · intro hcon
          rw [hrel] at hcon
          exact Bool.noConfusion hcon
    · rw [if_neg hrel]
      constructor
      · intro _
        exact Bool.eq_false_iff.mpr hrel
      · intro _
        rfl

/-- Witness for C9 at a three-cell row with a column map expecting index 4:
`closing_date` is empty and the row is processed, not skipped. -/
theorem defensive_column_mapping_witness :
    rowClosingDate cRow3 = ""
    ∧ (scrapeRow wIdResolve "now" ["etender"] [] cRow3).2 ≠ RowResult.skipped :=
  ⟨(defensive_column_mapping wIdResolve "now" ["etender"] [] cRow3
      (by decide) (by decide)).1,
   (defensive_column_mapping wIdResolve "now" ["etender"] [] cRow3
      (by decide) (by decide)).2.2.1⟩

/-- C10: When dry-run is off and `SMTP_USER` is unset, the recipient list
passed to delivery is empty even when `TO_EMAILS` is non-empty (the call-site
expression groups as a conditional on `SMTP_USER`), delivery returns false
for every item, and every new item of the run is persisted with `notified`
false. -/
theorem unset_smtp_user_unnotified (cfg : Config)
    (transport : String → String → List String → Bool)
    (resolve : String → String) (ds : String → Option String) (now : String)
    (doc : Doc) (kws : List String) (seen0 : Store)
    (h1 : cfg.dryRun = false) (h2 : cfg.smtpUser = none) :
    recipientsArg cfg = []
    ∧ (∀ t, deliverOf cfg transport now t = false)
    ∧ ∀ t, t ∈ (runMain cfg transport resolve ds now doc kws seen0).newItems →
        alistLookup
          (runMain cfg transport resolve ds now doc kws seen0).finalStore
          t.href = some (mkSeenEntry t false now) := by
  have hrec : recipientsArg cfg = [] := by
    rw [recipientsArg, h2]
    rfl
  have hdel : ∀ t, deliverOf cfg transport now t = false := by
    intro t
    rw [deliverOf, sendEmailSmtp, h1]
    simp [h2, optTruthy]
  refine ⟨hrec, hdel, ?_⟩
  intro t ht
  have h := runPipeline_lookup_newItem resolve ds (deliverOf cfg transport now)
    now doc kws seen0 t ht
  rw [hdel t] at h
  exact h

/-- Witness for C10: with recipients configured but `SMTP_USER` unset and
dry-run off, the recipient list is empty and a concrete new item is persisted
with `notified` false. -/
theorem unset_smtp_user_unnotified_witness :
    recipientsArg cCfg = []
    ∧ alistLookup (runMain cCfg cTransport wIdResolve wNoDate "now" wDocAB
        ["etender"] []).finalStore "https://x/a"
      = some (mkSeenEntry wTenderA false "now") :=
  ⟨(unset_smtp_user_unnotified cCfg cTransport wIdResolve wNoDate "now" wDocAB
      ["etender"] [] rfl rfl).1,
   (unset_smtp_user_unnotified cCfg cTransport wIdResolve wNoDate "now" wDocAB
      ["etender"] [] rfl rfl).2.2 wTenderA (by decide)⟩

end TenderAutomation
